import Mathlib

/-!
Verification of the docker-mirror mirroring engine.

This file gives a shallow embedding, in Lean, of the parts of the
seatgeek/docker-mirror program that the verified properties talk about:

* the Go `time` arithmetic used by the program (`time.Time.Sub` with its
  saturation to the 64-bit `Duration` range, `time.Unix`), modelled on
  unbounded `Int` nanoseconds counted from Go's zero time (January 1, year 1);
* the `ryanuber/go-glob` matcher `glob.Glob` used for tag matching;
* `mirror.filterTags` (mirror.go) with its four rules: match globs, drop
  globs, max tag age, max tag count;
* the per-page retry loop of `mirror.getRemoteTags` (mirror.go);
* `mirror.work` (mirror.go): the per-tag pull / tag / push / cleanup loop,
  both as a result computation and as a trace of the blocking actions it
  performs;
* the ECR repository cache managers: `exists` / `ensure` / `create` and the
  paginated `buildCache` of `ecrPrivateManager` (ecr_private_manager.go),
  `ecrManager` (ecr_manager.go) and `ecrPublicManager`;
* the `worker` host dispatch of main.go;
* `getSleepTime` (mirror.go) together with Go's `strconv.ParseInt`.

External effects (HTTP responses, AWS API results, docker daemon results)
are passed in explicitly as data, so every definition is executable.
-/

namespace DockerMirror

/-! ## Go time arithmetic

Go's `time.Duration` is a 64-bit count of nanoseconds.  `time.Time.Sub`
returns the exact difference when it fits and otherwise saturates to the
minimum/maximum `Duration`.  A `time.Time` is modelled as an unbounded `Int`
of nanoseconds since Go's zero time (January 1, year 1 UTC); the zero value
of `time.Time` is `0` in this model. -/

def maxInt64 : Int := 9223372036854775807

def minInt64 : Int := -9223372036854775808

/-- Saturation of `time.Time.Sub`'s result to the `time.Duration` range. -/
def clampDuration (d : Int) : Int :=
  if d > maxInt64 then maxInt64 else if d < minInt64 then minInt64 else d

/-- `t.Sub(u)` for two times (Int nanoseconds since Go's zero time):
the exact difference, saturated to the 64-bit `Duration` range. -/
def timeSub (t u : Int) : Int := clampDuration (t - u)

/-- Seconds between Go's internal epoch (year 1) and the Unix epoch
(`unixToInternal` in the Go time package). -/
def unixToInternal : Int := 62135596800

/-- 64-bit two's-complement wrap-around, as Go `int64` addition behaves. -/
def wrap64 (x : Int) : Int :=
  (x + 9223372036854775808) % 18446744073709551616 - 9223372036854775808

/-- `time.Unix(sec, 0)` as nanoseconds since Go's zero time: the Go
implementation stores `sec + unixToInternal` in an `int64` field (wrapping on
overflow) for its seconds-since-year-1 count. -/
def goTimeUnix (sec : Int) : Int := wrap64 (sec + unixToInternal) * 1000000000

/-! ## The go-glob matcher

`glob.Glob(pattern, subj)` from ryanuber/go-glob, translated on `List Char`:
the pattern is split on `*`; the first chunk must start the subject (unless
the pattern has a leading `*`), middle chunks are located left-to-right with
`strings.Index`, consuming the subject up to and including each hit, and the
final chunk must be a suffix of what remains (unless the pattern has a
trailing `*`). -/

/-- `strings.HasPrefix`-style check on character lists. -/
def listStartsWith : List Char → List Char → Bool
  | [], _ => true
  | _ :: _, [] => false
  | p :: ps, s :: ss => p == s && listStartsWith ps ss

/-- `strings.HasSuffix`-style check on character lists. -/
def listEndsWith (p s : List Char) : Bool :=
  listStartsWith p.reverse s.reverse

/-- Position of the first occurrence of `part` inside `subj`, if any. -/
def firstMatchPos (part : List Char) : List Char → Option Nat
  | [] => if listStartsWith part [] then some 0 else none
  | c :: cs =>
    if listStartsWith part (c :: cs) then some 0
    else (firstMatchPos part cs).map (· + 1)

/-- `strings.Index(subj, part)`: index of the first occurrence, `-1` if none. -/
def strIndex (subj part : List Char) : Int :=
  match firstMatchPos part subj with
  | some n => (n : Int)
  | none => -1

/-- `strings.Split(pattern, "*")` on character lists. -/
def splitOnStar : List Char → List (List Char)
  | [] => [[]]
  | c :: cs =>
    if c == '*' then [] :: splitOnStar cs
    else
      match splitOnStar cs with
      | [] => [[c]]
      | h :: t => (c :: h) :: t

/-- The chunk loop of `glob.Glob`: for the first chunk, fail unless the
pattern has a leading `*` or the chunk sits at index 0; for later chunks,
fail when the chunk does not occur; either way consume the subject through
the chunk.  Returns the remaining subject, `none` on failure. -/
def globScan (leadingStar : Bool) : Bool → List (List Char) → List Char → Option (List Char)
  | _, [], subj => some subj
  | isFirst, p :: ps, subj =>
    let idx := strIndex subj p
    if isFirst && !leadingStar && idx != 0 then none
    else if !isFirst && idx < 0 then none
    else globScan leadingStar false ps (subj.drop (Int.toNat (idx + p.length)))

/-- `glob.Glob(pattern, subj)` on character lists. -/
def goGlobChars (pattern subj : List Char) : Bool :=
  if pattern == [] then subj == pattern
  else if pattern == ['*'] then true
  else
    let parts := splitOnStar pattern
    if parts.length == 1 then subj == pattern
    else
      let leadingStar := listStartsWith ['*'] pattern
      let trailingStar := listEndsWith ['*'] pattern
      match globScan leadingStar true parts.dropLast subj with
      | none => false
      | some rest => trailingStar || listEndsWith (parts.getLastD []) rest

/-- `glob.Glob(pattern, subj)` on strings, as called by `filterTags`. -/
def goGlob (pattern subj : String) : Bool :=
  goGlobChars pattern.toList subj.toList

/-! ## Repository data and the filter pipeline (mirror.go `filterTags`) -/

/-- `RepositoryTag` (mirror.go): the tag name and its `last_updated`
timestamp; sources without timestamps leave the Go zero value, `0` here. -/
structure RepositoryTag where
  name : String
  lastUpdated : Int
deriving DecidableEq

/-- The fields of `Repository` (main.go) that the mirroring engine reads:
`Name`, `Host`, `MatchTags`, `DropTags`, `MaxTags` (Go `int`),
`MaxTagAge` (optional duration, nanoseconds). -/
structure Repository where
  name : String
  host : String
  matchTags : List String
  dropTags : List String
  maxTags : Int
  maxTagAge : Option Int
deriving DecidableEq

/-- The match-glob block of `filterTags`: with patterns configured, keep the
tag when some pattern globs its name (the Go loop sets `keep` on any hit). -/
def matchRuleKeeps (matchTags : List String) (name : String) : Bool :=
  if matchTags.length > 0 then matchTags.any (fun p => goGlob p name) else true

/-- The ignore-glob block of `filterTags`: with patterns configured, drop the
tag when some pattern globs its name. -/
def dropRuleKeeps (dropTags : List String) (name : String) : Bool :=
  if dropTags.length > 0 then !(dropTags.any (fun p => goGlob p name)) else true

/-- The age block of `filterTags`: with a max age configured, drop the tag
when `now.Sub(tag.LastUpdated)` exceeds it. -/
def ageRuleKeeps (maxTagAge : Option Int) (now : Int) (t : RepositoryTag) : Bool :=
  match maxTagAge with
  | none => true
  | some dur => if timeSub now t.lastUpdated > dur then false else true

/-- One tag survives the `filterTags` loop body (the three `continue` guards). -/
def keepTag (repo : Repository) (now : Int) (t : RepositoryTag) : Bool :=
  matchRuleKeeps repo.matchTags t.name && dropRuleKeeps repo.dropTags t.name
    && ageRuleKeeps repo.maxTagAge now t

/-- The trailing count cut of `filterTags`:
`if m.repo.MaxTags > 0 && len(res) > m.repo.MaxTags { res = res[:m.repo.MaxTags] }`. -/
def truncateTags (maxTags : Int) (res : List RepositoryTag) : List RepositoryTag :=
  if maxTags > 0 ∧ (res.length : Int) > maxTags then res.take maxTags.toNat else res

/-- `mirror.filterTags` (mirror.go): one pass keeping the tags that pass the
match, drop and age rules, then the count cut. -/
def filterTags (repo : Repository) (now : Int) (tags : List RepositoryTag) :
    List RepositoryTag :=
  truncateTags repo.maxTags (tags.filter (keepTag repo now))

/-! ## The per-tag loop of `mirror.work` (mirror.go)

The docker daemon's answers to the four per-tag requests are passed in as
data: `none` is success, `some e` the error the call returned. -/

/-- Outcomes handed to one iteration of the `work` tag loop: the results of
`pullImage`, `tagImage`, `pushImage` and `deleteImage` for that tag. -/
structure TagStepOutcomes where
  pullErr : Option String
  tagErr : Option String
  pushErr : Option String
  deleteErr : Option String
deriving DecidableEq

/-- How one tag iteration of `work` ends: at which step the loop `continue`d,
or the success log line. -/
inductive TagOutcome where
  | pullFailed
  | tagFailed
  | pushFailed
  | cleanupFailed
  | mirrored
deriving DecidableEq

/-- One iteration of the tag loop in `work`: each failing step logs and
`continue`s to the next tag; cleanup runs only when the global cleanup flag
is set. -/
def mirrorOneTag (cleanup : Bool) (o : TagStepOutcomes) : TagOutcome :=
  match o.pullErr with
  | some _ => .pullFailed
  | none =>
    match o.tagErr with
    | some _ => .tagFailed
    | none =>
      match o.pushErr with
      | some _ => .pushFailed
      | none =>
        if cleanup then
          match o.deleteErr with
          | some _ => .cleanupFailed
          | none => .mirrored
        else .mirrored

/-- The tag loop of `work` over the filtered tags, in order. -/
def workLoop (cleanup : Bool) : List TagStepOutcomes → List TagOutcome
  | [] => []
  | o :: os => mirrorOneTag cleanup o :: workLoop cleanup os

/-- How `mirror.work` ends: an early return when `ecrManager.ensure` fails,
or the terminal "Repository mirror completed" log with one outcome per
filtered tag. -/
inductive WorkResult where
  | ensureFailed (e : String)
  | completed (results : List TagOutcome)
deriving DecidableEq

/-- `mirror.work` (mirror.go): ensure the target repository, then run the
tag loop; reaching the end is the "Repository mirror completed" log. -/
def work (cleanup : Bool) (ensureErr : Option String)
    (tagJobs : List TagStepOutcomes) : WorkResult :=
  match ensureErr with
  | some e => .ensureFailed e
  | none => .completed (workLoop cleanup tagJobs)

/-- The blocking actions `work` performs, in program order. -/
inductive WorkEvent where
  | ensureRepo
  | pullImage
  | tagImage
  | consoleRead
  | pushImage
  | removeImages
  | repoDone
deriving DecidableEq

/-- The blocking actions of one tag iteration of `work`, in the order the
source performs them: docker pull; docker tag; the os.Stdin line read that
`work` performs after a successful retag (the Enter-any-key prompt, a
`bufio.Reader.ReadString` on standard input); docker push; and, with cleanup
enabled, the two image removals. -/
def mirrorTagTrace (cleanup : Bool) (o : TagStepOutcomes) : List WorkEvent :=
  .pullImage ::
    match o.pullErr with
    | some _ => []
    | none =>
      .tagImage ::
        match o.tagErr with
        | some _ => []
        | none =>
          .consoleRead :: .pushImage ::
            match o.pushErr with
            | some _ => []
            | none => if cleanup then [.removeImages] else []

/-- The blocking actions of a whole `work` run, in program order. -/
def workTrace (cleanup : Bool) (ensureErr : Option String)
    (tagJobs : List TagStepOutcomes) : List WorkEvent :=
  .ensureRepo ::
    match ensureErr with
    | some _ => []
    | none => (tagJobs.map (mirrorTagTrace cleanup)).flatten ++ [.repoDone]

/-! ## The per-page retry loop of `mirror.getRemoteTags` (mirror.go)

For one page URL the inner loop performs up to `retries = 5` attempts; the
outcome of attempt `i` is supplied by an oracle.  `err` and `res` are the
two values the loop's `httpClient.Do` assignment leaves behind. -/

/-- What one `httpClient.Do` attempt produced. -/
inductive HttpAttempt where
  | transportError (e : String)
  | httpResponse (status : Int) (body : String)
deriving DecidableEq

/-- The retry loop of `getRemoteTags`, for one page: walks attempts while
`retries > 0`, decrementing on a transport error, a 429 (after sleeping) or
a non-2xx status, and breaking on a 2xx response.  Returns the final
`(err, res)` pair and the number of attempts consumed. -/
def pageRetryLoop (oracle : Nat → HttpAttempt) :
    Nat → Nat → Option String → Option (Int × String) →
    Option String × Option (Int × String) × Nat
  | 0, i, err, res => (err, res, i)
  | r + 1, i, _, _ =>
    match oracle i with
    | .transportError e => pageRetryLoop oracle r (i + 1) (some e) none
    | .httpResponse st body =>
      if st == 429 then pageRetryLoop oracle r (i + 1) none (some (st, body))
      else if st < 200 ∨ st ≥ 300 then
        pageRetryLoop oracle r (i + 1) none (some (st, body))
      else (none, some (st, body), i + 1)

/-- What `getRemoteTags` does with a page once the retry loop has ended:
`return nil, err` when `err != nil`, otherwise proceed to json-decode the
body of whatever response `res` holds. -/
inductive PageFetchResult where
  | fatal (e : String)
  | decodeBody (status : Int) (body : String)
deriving DecidableEq

/-- One page fetch of `getRemoteTags`: run the retry loop with a budget of 5,
then branch on the leftover `err`. -/
def getRemoteTagsPage (oracle : Nat → HttpAttempt) : PageFetchResult :=
  match pageRetryLoop oracle 5 0 none none with
  | (some e, _, _) => .fatal e
  | (none, some r, _) => .decodeBody r.1 r.2
  | (none, none, _) => .decodeBody 0 ""  -- unreachable: the loop always attempts once

/-- Attempts consumed by the retry loop for one page. -/
def pageAttemptsUsed (oracle : Nat → HttpAttempt) : Nat :=
  (pageRetryLoop oracle 5 0 none none).2.2

/-! ## ECR repository cache managers

The cache (`repositories map[string]bool`) is modelled as the list of its
keys; AWS call results are passed in as data.  `buildCache`'s paginated
listing is a list of per-page results, page `k+1` existing exactly when page
`k`'s reply carried a `NextToken`. -/

/-- Map-key insertion for `e.repositories[name] = true`. -/
def cacheInsert (cache : List String) (name : String) : List String :=
  if name ∈ cache then cache else cache ++ [name]

/-- `exists(name)`: key lookup in the cache. -/
def ecrExists (cache : List String) (name : String) : Bool :=
  decide (name ∈ cache)

/-- `create(name)` of the ECR managers: the remote `CreateRepository` result
is `remote` (`none` = success); on success the name is inserted, on failure
the cache is untouched and the error returned. -/
def ecrCreate (remote : Option String) (cache : List String) (name : String) :
    List String × Option String :=
  match remote with
  | some e => (cache, some e)
  | none => (cacheInsert cache name, none)

/-- `ensure(name)` of the ECR managers: a no-op when cached, otherwise
`create`.  The third component counts the `create` calls made (0 or 1). -/
def ecrEnsure (remote : Option String) (cache : List String) (name : String) :
    List String × Option String × Nat :=
  if ecrExists cache name then (cache, none, 0)
  else
    match ecrCreate remote cache name with
    | (c, e) => (c, e, 1)

/-- `ecrPrivateManager.buildCache` (ecr_private_manager.go) and the identical
`ecrManager.buildCache` (ecr_manager.go): page results in order; a failed
`DescribeRepositories` on the current page returns its error, a successful
one inserts the names; when a `NextToken` is present (a further page exists)
the recursive call runs but its returned error is dropped (`e.buildCache(resp.NextToken)`
with no error check), and the function returns `nil`. -/
def buildCachePrivate :
    List (Except String (List String)) → List String → List String × Option String
  | [], cache => (cache, none)
  | .error e :: _, cache => (cache, some e)
  | .ok names :: rest, cache =>
    let cache2 := names.foldl cacheInsert cache
    match rest with
    | [] => (cache2, none)
    | _ :: _ =>
      let r := buildCachePrivate rest cache2
      (r.1, none)

/-- `ecrPublicManager.buildCache`: identical pagination, but the recursive
call's error is checked and returned. -/
def buildCachePublic :
    List (Except String (List String)) → List String → List String × Option String
  | [], cache => (cache, none)
  | .error e :: _, cache => (cache, some e)
  | .ok names :: rest, cache =>
    let cache2 := names.foldl cacheInsert cache
    match rest with
    | [] => (cache2, none)
    | _ :: _ =>
      match buildCachePublic rest cache2 with
      | (c, some e) => (c, some e)
      | (c, none) => (c, none)

/-! ## The worker host dispatch (main.go `worker`) -/

def dockerHub : String := "hub.docker.com"

def quay : String := "quay.io"

def gcr : String := "gcr.io"

def k8s_gcr : String := "k8s.gcr.io"

/-- What a worker does with one dequeued job: log the unsupported-host error
and acknowledge (`wg.Done()` + `continue`), or run the mirror on the
(possibly host-defaulted) repository and acknowledge. -/
inductive WorkerAction where
  | ackConfigError (host : String)
  | processJob (repo : Repository)
deriving DecidableEq

/-- The per-job branch of `worker` (main.go): a non-empty host outside the
supported set is rejected before any processing; an empty host is replaced
by `hub.docker.com`. -/
def workerHandleJob (repo : Repository) : WorkerAction :=
  if repo.host ≠ "" ∧ repo.host ≠ dockerHub ∧ repo.host ≠ quay ∧ repo.host ≠ gcr
      ∧ repo.host ≠ k8s_gcr then
    .ackConfigError repo.host
  else if repo.host = "" then
    .processJob ⟨repo.name, dockerHub, repo.matchTags, repo.dropTags,
      repo.maxTags, repo.maxTagAge⟩
  else
    .processJob repo

/-- A worker draining a job sequence: every job is handled and acknowledged,
the loop never stops early. -/
def workerRunJobs (jobs : List Repository) : List WorkerAction :=
  jobs.map workerHandleJob

/-! ## `getSleepTime` (mirror.go) and `strconv.ParseInt` -/

/-- `defaultSleepDuration = 60 * time.Second`, in nanoseconds. -/
def defaultSleepDuration : Int := 60000000000

/-- ASCII decimal digit test. -/
def isGoDigit (c : Char) : Bool := 48 ≤ c.toNat && c.toNat ≤ 57

/-- Decimal value of a digit string. -/
def digitsVal (cs : List Char) : Nat :=
  cs.foldl (fun acc c => acc * 10 + (c.toNat - 48)) 0

/-- A non-empty all-digit run, or nothing. -/
def parseDigits (cs : List Char) : Option Nat :=
  if cs ≠ [] && cs.all isGoDigit then some (digitsVal cs) else none

/-- `strconv.ParseInt(s, 10, 64)`: one optional sign, then base-10 digits
only, and the value must fit in `int64`; anything else is an error (`none`). -/
def goParseInt64 (s : String) : Option Int :=
  match s.toList with
  | '+' :: rest =>
    match parseDigits rest with
    | some n => if (n : Int) ≤ maxInt64 then some (n : Int) else none
    | none => none
  | '-' :: rest =>
    match parseDigits rest with
    | some n => if (n : Int) ≤ 9223372036854775808 then some (-(n : Int)) else none
    | none => none
  | cs =>
    match parseDigits cs with
    | some n => if (n : Int) ≤ maxInt64 then some (n : Int) else none
    | none => none

/-- `getSleepTime(rateLimitReset, now)` (mirror.go): the unparseable case
returns the 60s default; otherwise `time.Unix(v, 0).Sub(now)`, floored at 0. -/
def getSleepTime (rateLimitReset : String) (now : Int) : Int :=
  match goParseInt64 rateLimitReset with
  | none => defaultSleepDuration
  | some v =>
    let sleepTime := goTimeUnix v
    let calculated := timeSub sleepTime now
    if calculated < 0 then 0 else calculated

/-! ## Helper lemmas -/

lemma truncate_zero (res : List RepositoryTag) : truncateTags 0 res = res := by
  unfold truncateTags
  simp

lemma matchRuleKeeps_iff (M : List String) (name : String) :
    matchRuleKeeps M name = true ↔ (M = [] ∨ ∃ p ∈ M, goGlob p name = true) := by
  cases M with
  | nil => simp [matchRuleKeeps]
  | cons p ps => simp [matchRuleKeeps, List.any_eq_true]

lemma dropRuleKeeps_iff (D : List String) (name : String) :
    dropRuleKeeps D name = true ↔ (D = [] ∨ ∀ p ∈ D, goGlob p name = false) := by
  cases D with
  | nil => simp [dropRuleKeeps]
  | cons p ps => simp [dropRuleKeeps, List.any_eq_true]

/-! ## C1: the age rule of the filter pipeline -/

/-- C1, counterexample to the claim as stated: a tag with no last-updated
timestamp (the Go zero time, `0` here) is discarded by the age rule.  With a
max age of 4 weeks (2419200000000000 ns) and now = 2021-01-01 UTC
(63745056000000000000 ns after the zero time), `now.Sub(zero)` saturates to
the maximum duration, exceeds the max age, and the tag is dropped — both by
the age rule itself and by the whole `filterTags` pipeline. -/
theorem c1_counterexample :
    ageRuleKeeps (some 2419200000000000) 63745056000000000000 ⟨"1.0", 0⟩ = false
    ∧ filterTags ⟨"", "", [], [], 0, some 2419200000000000⟩ 63745056000000000000
        [⟨"1.0", 0⟩] = [] := by
  refine ⟨by decide, by decide⟩

/-- C1 (amended): in the filter pipeline's age rule, for a repository with a
configured max tag age, a tag is kept by the age rule exactly when
`now.Sub(lastUpdated)` (Go's saturating time subtraction) is at most the max
age, and it is dropped otherwise; a tag with no last-updated timestamp
carries the zero time, so it too is discarded whenever the max age is below
`now.Sub(zero)` — the age rule does not exempt timestamp-less tags. -/
theorem c1_age_rule_amended :
    (∀ (a now : Int) (tags : List RepositoryTag),
      filterTags ⟨"", "", [], [], 0, some a⟩ now tags
        = tags.filter (fun t => ageRuleKeeps (some a) now t))
    ∧ (∀ (a now : Int) (t : RepositoryTag),
        ageRuleKeeps (some a) now t = true ↔ timeSub now t.lastUpdated ≤ a)
    ∧ (∀ (a now : Int) (t : RepositoryTag),
        t.lastUpdated = 0 → a < timeSub now 0 →
        ageRuleKeeps (some a) now t = false) := by
  refine ⟨?_, ?_, ?_⟩
  · intro a now tags
    unfold filterTags
    show truncateTags 0 _ = _
    rw [truncate_zero]
    apply List.filter_congr
    intro t _
    show (matchRuleKeeps [] t.name && dropRuleKeeps [] t.name
        && ageRuleKeeps (some a) now t) = ageRuleKeeps (some a) now t
    simp [matchRuleKeeps, dropRuleKeeps]
  · intro a now t
    by_cases h : timeSub now t.lastUpdated > a
    · simp [ageRuleKeeps, h]
    · simp [ageRuleKeeps, h]
      omega
  · intro a now t h0 hlt
    simp [ageRuleKeeps, h0, hlt]

/-- Witness for C1's amended theorem at a concrete input: the 4-week max age
drops the timestamp-less tag at now = 2021-01-01. -/
theorem c1_age_rule_amended_witness :
    ageRuleKeeps (some 2419200000000000) 63745056000000000000 ⟨"1.0", 0⟩ = false :=
  c1_age_rule_amended.2.2 2419200000000000 63745056000000000000 ⟨"1.0", 0⟩ rfl
    (by decide)

/-! ## C2: match and drop globs with age and count filters unset -/

/-- C2: with no max age and no max count configured, `filterTags` is exactly
the filter by the match-glob and drop-glob rules — a tag survives iff (no
match patterns are configured or some match pattern globs its name) and (no
drop patterns are configured or no drop pattern globs its name) — and,
being a `List.filter`, it keeps the surviving tags in input order. -/
theorem c2_match_drop_filter (repo : Repository) (now : Int)
    (tags : List RepositoryTag)
    (hAge : repo.maxTagAge = none) (hMax : repo.maxTags = 0) :
    filterTags repo now tags
      = tags.filter
          (fun t => matchRuleKeeps repo.matchTags t.name
            && dropRuleKeeps repo.dropTags t.name)
    ∧ ∀ t : RepositoryTag,
        t ∈ filterTags repo now tags ↔
          t ∈ tags
            ∧ (repo.matchTags = [] ∨ ∃ p ∈ repo.matchTags, goGlob p t.name = true)
            ∧ (repo.dropTags = [] ∨ ∀ p ∈ repo.dropTags, goGlob p t.name = false) := by
  have hfilter : filterTags repo now tags
      = tags.filter
          (fun t => matchRuleKeeps repo.matchTags t.name
            && dropRuleKeeps repo.dropTags t.name) := by
    unfold filterTags
    rw [hMax, truncate_zero]
    apply List.filter_congr
    intro t _
    unfold keepTag
    rw [hAge]
    simp [ageRuleKeeps]
  refine ⟨hfilter, ?_⟩
  intro t
  rw [hfilter, List.mem_filter, Bool.and_eq_true, matchRuleKeeps_iff,
    dropRuleKeeps_iff]

/-- Witness for C2 at the spec's scenario A repository (match `6.*`, drop
`*-alpine`, no age or count limits). -/
theorem c2_match_drop_filter_witness :
    filterTags ⟨"elasticsearch", "", ["6.*"], ["*-alpine"], 0, none⟩ 0
        [⟨"6.1", 0⟩, ⟨"6.1-alpine", 0⟩, ⟨"5.9", 0⟩, ⟨"6.2", 0⟩]
      = [⟨"6.1", 0⟩, ⟨"6.1-alpine", 0⟩, ⟨"5.9", 0⟩, ⟨"6.2", 0⟩].filter
          (fun t => matchRuleKeeps ["6.*"] t.name
            && dropRuleKeeps ["*-alpine"] t.name) :=
  (c2_match_drop_filter ⟨"elasticsearch", "", ["6.*"], ["*-alpine"], 0, none⟩ 0
    [⟨"6.1", 0⟩, ⟨"6.1-alpine", 0⟩, ⟨"5.9", 0⟩, ⟨"6.2", 0⟩] rfl rfl).1

/-! ## C8: the count-truncation step -/

/-- C8: with a configured max tag count `N` with `0 < N < L`, the truncation
step keeps exactly the first `N` of the remaining tags in order (`List.take`),
and with `N = 0` (unset) or `L ≤ N` the sequence is unchanged. -/
theorem c8_truncation (res : List RepositoryTag) (N : Int) :
    (0 < N → N < (res.length : Int) →
      truncateTags N res = res.take N.toNat
        ∧ (res.take N.toNat).length = N.toNat)
    ∧ (N = 0 ∨ (res.length : Int) ≤ N → truncateTags N res = res) := by
  constructor
  · intro h1 h2
    have hc : 0 < N ∧ (res.length : Int) > N := ⟨h1, h2⟩
    unfold truncateTags
    rw [if_pos hc]
    refine ⟨rfl, ?_⟩
    rw [List.length_take]
    omega
  · intro h
    have hc : ¬(0 < N ∧ (res.length : Int) > N) := by omega
    unfold truncateTags
    rw [if_neg hc]

/-- Witness for C8 at the spec's scenario B: three tags, max count 2. -/
theorem c8_truncation_witness :
    truncateTags 2 [⟨"v3", 3⟩, ⟨"v2", 2⟩, ⟨"v1", 1⟩]
        = ([⟨"v3", 3⟩, ⟨"v2", 2⟩, ⟨"v1", 1⟩] : List RepositoryTag).take (Int.toNat 2)
      ∧ (([⟨"v3", 3⟩, ⟨"v2", 2⟩, ⟨"v1", 1⟩] : List RepositoryTag).take
          (Int.toNat 2)).length = Int.toNat 2 :=
  (c8_truncation [⟨"v3", 3⟩, ⟨"v2", 2⟩, ⟨"v1", 1⟩] 2).1 (by decide) (by decide)

/-! ## C5: per-tag failure isolation in `work` -/

lemma workLoop_eq_map (cleanup : Bool) (jobs : List TagStepOutcomes) :
    workLoop cleanup jobs = jobs.map (mirrorOneTag cleanup) := by
  induction jobs with
  | nil => rfl
  | cons o os ih => rw [workLoop, List.map_cons, ih]

/-- C5: once the target repository is ensured, `work` runs the tag loop over
every filtered tag and always reaches the terminal "Repository mirror
completed" state: the result is `completed` with exactly one outcome per
tag (each computed independently by `mirrorOneTag`), so a pull, retag, push
or cleanup failure abandons only its own tag and never aborts the loop. -/
theorem c5_tag_failures_isolated :
    ∀ (cleanup : Bool) (jobs : List TagStepOutcomes),
      work cleanup none jobs = WorkResult.completed (jobs.map (mirrorOneTag cleanup))
      ∧ (jobs.map (mirrorOneTag cleanup)).length = jobs.length
      ∧ ∀ (o : TagStepOutcomes) (os : List TagStepOutcomes),
          workLoop cleanup (o :: os) = mirrorOneTag cleanup o :: workLoop cleanup os := by
  intro cleanup jobs
  refine ⟨?_, by simp, fun o os => rfl⟩
  show WorkResult.completed (workLoop cleanup jobs) = _
  rw [workLoop_eq_map]

/-! ## C6: the stdin read inside the tag loop -/

/-- C6, evaluating the code at the failing input: for a tag whose pull and
retag succeed, the blocking actions of one `work` iteration are pull, tag,
then a read from standard input, then push — `work` blocks waiting for
console input between retag and push, for every tag. -/
theorem c6_console_read_between_tag_and_push :
    mirrorTagTrace false ⟨none, none, none, none⟩
        = [WorkEvent.pullImage, WorkEvent.tagImage, WorkEvent.consoleRead,
            WorkEvent.pushImage]
    ∧ workTrace false none [⟨none, none, none, none⟩]
        = [WorkEvent.ensureRepo, WorkEvent.pullImage, WorkEvent.tagImage,
            WorkEvent.consoleRead, WorkEvent.pushImage, WorkEvent.repoDone] :=
  ⟨rfl, rfl⟩

/-! ## C3: the per-page retry budget of `getRemoteTags` -/

lemma pageRetryLoop_used_le (oracle : Nat → HttpAttempt) :
    ∀ (r i : Nat) (err : Option String) (res : Option (Int × String)),
      (pageRetryLoop oracle r i err res).2.2 ≤ i + r := by
  intro r
  induction r with
  | zero => intro i err res; simp [pageRetryLoop]
  | succ n ih =>
    intro i err res
    simp only [pageRetryLoop]
    split
    next e h =>
      have := ih (i + 1) (some e) none
      omega
    next st body h =>
      split_ifs with h1 h2
      · have := ih (i + 1) none (some (st, body))
        omega
      · have := ih (i + 1) none (some (st, body))
        omega
      · show i + 1 ≤ i + (n + 1)
        omega

/-- C3, evaluating the code at the failing input: each page request is
attempted at most 5 times, and exhausting the budget on transport errors
does surface the last error; but exhausting it on failing HTTP statuses
(here five 500 responses) leaves `err` nil, so `getRemoteTags` proceeds to
json-decode the body of the last failed response instead of returning an
error. -/
theorem c3_retry_exhaustion_behavior :
    (∀ oracle : Nat → HttpAttempt, pageAttemptsUsed oracle ≤ 5)
    ∧ getRemoteTagsPage (fun _ => HttpAttempt.httpResponse 500 "upstream failure")
        = PageFetchResult.decodeBody 500 "upstream failure"
    ∧ getRemoteTagsPage (fun _ => HttpAttempt.transportError "connection refused")
        = PageFetchResult.fatal "connection refused" := by
  refine ⟨fun oracle => ?_, by decide, by decide⟩
  have := pageRetryLoop_used_le oracle 5 0 none none
  unfold pageAttemptsUsed
  omega

/-! ## C4: pagination errors in `buildCache` -/

/-- C4, evaluating the code at the failing input: when page 1 of the
repository listing succeeds (with a next-page token) and page 2 fails, the
private managers' `buildCache` (ecr_private_manager.go and ecr_manager.go)
drops the recursive call's error and reports success with a partial cache,
while `ecrPublicManager.buildCache` surfaces the same failure; a first-page
failure is surfaced by all managers. -/
theorem c4_later_page_error_swallowed :
    buildCachePrivate [Except.ok ["repo-a"], Except.error "throttled"] []
        = (["repo-a"], none)
    ∧ buildCachePublic [Except.ok ["repo-a"], Except.error "throttled"] []
        = (["repo-a"], some "throttled")
    ∧ (∀ e : String, buildCachePrivate [Except.error e] [] = ([], some e)) :=
  ⟨by decide, by decide, fun e => rfl⟩

/-! ## C9: the repository existence cache -/

lemma ecrExists_insert (cache : List String) (name : String) :
    ecrExists (cacheInsert cache name) name = true := by
  unfold ecrExists cacheInsert
  by_cases h : name ∈ cache
  · rw [if_pos h]
    simp [h]
  · rw [if_neg h]
    simp

lemma ecrEnsure_cached (remote : Option String) (cache : List String) (name : String)
    (h : ecrExists cache name = true) :
    ecrEnsure remote cache name = (cache, none, 0) := by
  unfold ecrEnsure
  rw [if_pos h]

lemma ecrEnsure_uncached_success (cache : List String) (name : String)
    (h : ecrExists cache name = false) :
    ecrEnsure none cache name = (cacheInsert cache name, none, 1) := by
  unfold ecrEnsure ecrCreate
  rw [if_neg (by simp [h])]

lemma ecrEnsure_uncached_failure (cache : List String) (name : String) (e : String)
    (h : ecrExists cache name = false) :
    ecrEnsure (some e) cache name = (cache, some e, 1) := by
  unfold ecrEnsure ecrCreate
  rw [if_neg (by simp [h])]

/-- C9, counterexample to the claim as stated: from a cache state that
already holds the repository name, two successive `ensure` calls (with a
succeeding remote) make zero `create` calls, not exactly one — the third
component counts the `create` calls of each `ensure`. -/
theorem c9_counterexample :
    ecrEnsure none ["redis"] "redis" = (["redis"], none, 0)
    ∧ ecrEnsure none (ecrEnsure none ["redis"] "redis").1 "redis"
        = (["redis"], none, 0) := by
  refine ⟨by decide, by decide⟩

/-- C9 (amended): for every cache state and name, two successive `ensure`
calls with a succeeding remote make at most one `create` call — exactly one
when the name is absent, zero when it is already cached — the second
`ensure` is always a create-free no-op, `exists` holds after a successful
`create`, and a failing `create` leaves the cache unchanged and returns the
error (both directly and through `ensure`). -/
theorem c9_ensure_create_amended :
    ∀ (cache : List String) (name : String),
      ((ecrEnsure none cache name).2.2
          + (ecrEnsure none (ecrEnsure none cache name).1 name).2.2
        = if ecrExists cache name then 0 else 1)
      ∧ ecrEnsure none (ecrEnsure none cache name).1 name
          = ((ecrEnsure none cache name).1, none, 0)
      ∧ (ecrEnsure none cache name).2.1 = none
      ∧ ecrExists (ecrCreate none cache name).1 name = true
      ∧ (∀ e : String, ecrCreate (some e) cache name = (cache, some e))
      ∧ (∀ e : String, ecrExists cache name = false →
          ecrEnsure (some e) cache name = (cache, some e, 1)) := by
  intro cache name
  cases h : ecrExists cache name with
  | true =>
    have h1 : ecrEnsure none cache name = (cache, none, 0) :=
      ecrEnsure_cached none cache name h
    have h2 : ecrEnsure none (ecrEnsure none cache name).1 name = (cache, none, 0) := by
      rw [h1]
      exact ecrEnsure_cached none cache name h
    refine ⟨?_, ?_, ?_, ecrExists_insert cache name, fun e => rfl, ?_⟩
    · rw [h2, h1]
      rfl
    · rw [h2, h1]
    · rw [h1]
    · intro e he
      exact Bool.noConfusion he
  | false =>
    have h1 : ecrEnsure none cache name = (cacheInsert cache name, none, 1) :=
      ecrEnsure_uncached_success cache name h
    have h2 : ecrEnsure none (ecrEnsure none cache name).1 name
        = (cacheInsert cache name, none, 0) := by
      rw [h1]
      exact ecrEnsure_cached none (cacheInsert cache name) name
        (ecrExists_insert cache name)
    refine ⟨?_, ?_, ?_, ecrExists_insert cache name, fun e => rfl, ?_⟩
    · rw [h2, h1]
      rfl
    · rw [h2, h1]
    · rw [h1]
    · intro e _
      exact ecrEnsure_uncached_failure cache name e h

/-- Witness for C9's amended theorem: a failing `create` on an empty cache
leaves the cache unchanged, surfaces the error, and counts one call. -/
theorem c9_ensure_create_amended_witness :
    ecrEnsure (some "boom") [] "redis" = ([], some "boom", 1) :=
  (c9_ensure_create_amended [] "redis").2.2.2.2.2 "boom" (by decide)

/-! ## C7: getSleepTime -/

lemma sleepFloor_eq (x now : Int) :
    (if timeSub x now < 0 then 0 else timeSub x now)
      = if x - now ≤ 0 then 0 else min (x - now) maxInt64 := by
  unfold timeSub clampDuration maxInt64 minInt64
  simp only [min_def]
  split_ifs <;> omega

/-- C7, counterexample to the claim as stated: for the parsable reset header
string of 999999999999 (a far-future Unix timestamp) and now = 2021-01-01,
the reset-minus-now difference is positive, yet `getSleepTime` does not
return it exactly: `time.Time.Sub` saturates at the maximum 64-bit duration. -/
theorem c7_counterexample :
    getSleepTime "999999999999" 63745056000000000000 = maxInt64
    ∧ 0 < goTimeUnix 999999999999 - 63745056000000000000
    ∧ goTimeUnix 999999999999 - 63745056000000000000 ≠ maxInt64 := by
  refine ⟨by decide, by decide, by decide⟩

/-- C7 (amended): for every reset-header string and every current time,
`getSleepTime` returns the 60-second default when the string does not parse
as an `int64`; and when it parses to `v`, with `reset = time.Unix(v, 0)`:
it returns 0 when `reset = now`, returns 0 when `reset < now` (never a
negative duration), and returns `min (reset - now) maxInt64` when the
difference is positive — exactly `reset - now` up to the maximum 64-bit
duration, saturated beyond it. -/
theorem c7_sleep_time_amended :
    ∀ (s : String) (now : Int),
      (goParseInt64 s = none → getSleepTime s now = defaultSleepDuration)
      ∧ (∀ v : Int, goParseInt64 s = some v →
          (goTimeUnix v = now → getSleepTime s now = 0)
          ∧ (goTimeUnix v < now → getSleepTime s now = 0)
          ∧ (now < goTimeUnix v →
              getSleepTime s now = min (goTimeUnix v - now) maxInt64)) := by
  intro s now
  constructor
  · intro h
    unfold getSleepTime
    rw [h]
  · intro v hv
    have hrw : getSleepTime s now
        = if timeSub (goTimeUnix v) now < 0 then 0 else timeSub (goTimeUnix v) now := by
      unfold getSleepTime
      rw [hv]
    rw [hrw, sleepFloor_eq]
    refine ⟨?_, ?_, ?_⟩
    · intro he
      rw [if_pos (by omega)]
    · intro hlt
      rw [if_pos (by omega)]
    · intro hgt
      rw [if_neg (by omega)]

/-- Witness for C7's amended theorem: a reset 10 seconds after now returns
the exact 10-second difference (the Go test's positive case). -/
theorem c7_sleep_time_amended_witness :
    getSleepTime "1609459210" 63745056000000000000
      = min (goTimeUnix 1609459210 - 63745056000000000000) maxInt64 :=
  ((c7_sleep_time_amended "1609459210" 63745056000000000000).2 1609459210
    (by decide)).2.2 (by decide)

/-! ## C10: the worker host dispatch -/

/-- C10: a job whose repository names a non-empty host outside the supported
set (hub.docker.com, quay.io, gcr.io, k8s.gcr.io) is answered with a logged
configuration error and an immediate acknowledgement, with no processing; an
empty host is defaulted to hub.docker.com and processed; a supported host is
processed as-is; and the worker loop handles every queued job, one
acknowledged action per job. -/
theorem c10_worker_host_dispatch :
    (∀ repo : Repository, repo.host ≠ "" →
        repo.host ∉ [dockerHub, quay, gcr, k8s_gcr] →
        workerHandleJob repo = WorkerAction.ackConfigError repo.host)
    ∧ (∀ repo : Repository, repo.host = "" →
        workerHandleJob repo = WorkerAction.processJob
          ⟨repo.name, dockerHub, repo.matchTags, repo.dropTags, repo.maxTags,
            repo.maxTagAge⟩)
    ∧ (∀ repo : Repository, repo.host ∈ [dockerHub, quay, gcr, k8s_gcr] →
        workerHandleJob repo = WorkerAction.processJob repo)
    ∧ (∀ (j : Repository) (js : List Repository),
        workerRunJobs (j :: js) = workerHandleJob j :: workerRunJobs js)
    ∧ (∀ js : List Repository, (workerRunJobs js).length = js.length) := by
  refine ⟨?_, ?_, ?_, fun j js => rfl, fun js => by simp [workerRunJobs]⟩
  · intro repo h1 h2
    have h2' : repo.host ≠ dockerHub ∧ repo.host ≠ quay ∧ repo.host ≠ gcr
        ∧ repo.host ≠ k8s_gcr := by
      simpa using h2
    unfold workerHandleJob
    rw [if_pos ⟨h1, h2'.1, h2'.2.1, h2'.2.2.1, h2'.2.2.2⟩]
  · intro repo h
    unfold workerHandleJob
    rw [if_neg (fun hc => hc.1 h), if_pos h]
  · intro repo h
    have h4 : repo.host = dockerHub ∨ repo.host = quay ∨ repo.host = gcr
        ∨ repo.host = k8s_gcr := by
      simpa using h
    have hne : repo.host ≠ "" := by
      rcases h4 with h' | h' | h' | h' <;> rw [h'] <;> decide
    have hcond : ¬(repo.host ≠ "" ∧ repo.host ≠ dockerHub ∧ repo.host ≠ quay
        ∧ repo.host ≠ gcr ∧ repo.host ≠ k8s_gcr) := by
      rintro ⟨-, c2, c3, c4, c5⟩
      rcases h4 with h' | h' | h' | h'
      · exact c2 h'
      · exact c3 h'
      · exact c4 h'
      · exact c5 h'
    unfold workerHandleJob
    rw [if_neg hcond, if_neg hne]

/-- Witness for C10: a job for host example.com is rejected with a
configuration error and acknowledged without processing. -/
theorem c10_worker_host_dispatch_witness :
    workerHandleJob ⟨"nginx", "example.com", [], [], 0, none⟩
      = WorkerAction.ackConfigError "example.com" :=
  c10_worker_host_dispatch.1 ⟨"nginx", "example.com", [], [], 0, none⟩
    (by decide) (by decide)

end DockerMirror
